import Mathlib

/-!
Verification development for a Bluetooth HID macro-pad backend.

The definitions below are a shallow embedding of the Python backend:

* `backend/keycodes.py`   — the key-name table and `get_codes` resolution,
* `backend/hid_service.py`— the HID report state machine
  (`_update_report_for_keys`), the report transmission layer
  (`send_report`, `_try_send_current_report_if_changed`,
  `_send_empty_report`), the connection lifecycle
  (`register_active_connection`, `unregister_active_connection`) and the
  command-queue drain callback (`_command_queue_processor_cb`),
* `backend/input_handler.py` — event classification and command emission
  (`process_event`, `EVENT_MAPPINGS`, `load_mappings`),
* `backend/config_manager.py` — the mapping store
  (`get_mappings`, `update_mappings`),
* `backend/web_server.py` — the administrative update path
  (`POST /api/mappings`).

Machine bytes are modelled as `Nat` (every value stored in the 8-byte
report is kept below 256 by the operations themselves, as in the Python
`bytearray`).  Fallible I/O (the `os.write` on the interrupt channel,
`save_config`) is modelled by an explicit success flag.
-/

namespace Superbird

/-! ## keycodes.py: modifier masks and the name table -/

def MOD_NONE : Nat := 0x00
def MOD_LEFT_CTRL : Nat := 0x01
def MOD_LEFT_SHIFT : Nat := 0x02
def MOD_LEFT_ALT : Nat := 0x04
def MOD_LEFT_GUI : Nat := 0x08
def MOD_RIGHT_CTRL : Nat := 0x10
def MOD_RIGHT_SHIFT : Nat := 0x20
def MOD_RIGHT_ALT : Nat := 0x40
def MOD_RIGHT_GUI : Nat := 0x80

/-- NAME_TO_CODE from `KeycodeMap.__init__`: key name to
(modifier mask, HID usage code).  The Python `dict` has pairwise distinct
keys, so first-match association-list lookup coincides with `dict.get`. -/
def NAME_TO_CODE : List (String × (Nat × Nat)) := [
  ("A", (MOD_NONE, 0x04)), ("B", (MOD_NONE, 0x05)), ("C", (MOD_NONE, 0x06)),
  ("D", (MOD_NONE, 0x07)), ("E", (MOD_NONE, 0x08)), ("F", (MOD_NONE, 0x09)),
  ("G", (MOD_NONE, 0x0A)), ("H", (MOD_NONE, 0x0B)), ("I", (MOD_NONE, 0x0C)),
  ("J", (MOD_NONE, 0x0D)), ("K", (MOD_NONE, 0x0E)), ("L", (MOD_NONE, 0x0F)),
  ("M", (MOD_NONE, 0x10)), ("N", (MOD_NONE, 0x11)), ("O", (MOD_NONE, 0x12)),
  ("P", (MOD_NONE, 0x13)), ("Q", (MOD_NONE, 0x14)), ("R", (MOD_NONE, 0x15)),
  ("S", (MOD_NONE, 0x16)), ("T", (MOD_NONE, 0x17)), ("U", (MOD_NONE, 0x18)),
  ("V", (MOD_NONE, 0x19)), ("W", (MOD_NONE, 0x1A)), ("X", (MOD_NONE, 0x1B)),
  ("Y", (MOD_NONE, 0x1C)), ("Z", (MOD_NONE, 0x1D)),
  ("1", (MOD_NONE, 0x1E)), ("2", (MOD_NONE, 0x1F)), ("3", (MOD_NONE, 0x20)),
  ("4", (MOD_NONE, 0x21)), ("5", (MOD_NONE, 0x22)), ("6", (MOD_NONE, 0x23)),
  ("7", (MOD_NONE, 0x24)), ("8", (MOD_NONE, 0x25)), ("9", (MOD_NONE, 0x26)),
  ("0", (MOD_NONE, 0x27)),
  ("ENTER", (MOD_NONE, 0x28)), ("ESCAPE", (MOD_NONE, 0x29)),
  ("BACKSPACE", (MOD_NONE, 0x2A)),
  ("TAB", (MOD_NONE, 0x2B)), ("SPACE", (MOD_NONE, 0x2C)),
  ("MINUS", (MOD_NONE, 0x2D)), ("EQUAL", (MOD_NONE, 0x2E)),
  ("LEFT_BRACKET", (MOD_NONE, 0x2F)), ("RIGHT_BRACKET", (MOD_NONE, 0x30)),
  ("BACKSLASH", (MOD_NONE, 0x31)), ("HASH", (MOD_NONE, 0x32)),
  ("SEMICOLON", (MOD_NONE, 0x33)), ("QUOTE", (MOD_NONE, 0x34)),
  ("GRAVE", (MOD_NONE, 0x35)),
  ("COMMA", (MOD_NONE, 0x36)), ("PERIOD", (MOD_NONE, 0x37)),
  ("SLASH", (MOD_NONE, 0x38)),
  ("F1", (MOD_NONE, 0x3A)), ("F2", (MOD_NONE, 0x3B)), ("F3", (MOD_NONE, 0x3C)),
  ("F4", (MOD_NONE, 0x3D)), ("F5", (MOD_NONE, 0x3E)), ("F6", (MOD_NONE, 0x3F)),
  ("F7", (MOD_NONE, 0x40)), ("F8", (MOD_NONE, 0x41)), ("F9", (MOD_NONE, 0x42)),
  ("F10", (MOD_NONE, 0x43)), ("F11", (MOD_NONE, 0x44)), ("F12", (MOD_NONE, 0x45)),
  ("CAPS_LOCK", (MOD_NONE, 0x39)), ("PRINT_SCREEN", (MOD_NONE, 0x46)),
  ("SCROLL_LOCK", (MOD_NONE, 0x47)), ("PAUSE", (MOD_NONE, 0x48)),
  ("INSERT", (MOD_NONE, 0x49)), ("HOME", (MOD_NONE, 0x4A)),
  ("PAGE_UP", (MOD_NONE, 0x4B)),
  ("DELETE", (MOD_NONE, 0x4C)), ("END", (MOD_NONE, 0x4D)),
  ("PAGE_DOWN", (MOD_NONE, 0x4E)),
  ("RIGHT_ARROW", (MOD_NONE, 0x4F)), ("LEFT_ARROW", (MOD_NONE, 0x50)),
  ("DOWN_ARROW", (MOD_NONE, 0x51)), ("UP_ARROW", (MOD_NONE, 0x52)),
  ("KP_NUMLOCK", (MOD_NONE, 0x53)), ("KP_SLASH", (MOD_NONE, 0x54)),
  ("KP_ASTERISK", (MOD_NONE, 0x55)), ("KP_MINUS", (MOD_NONE, 0x56)),
  ("KP_PLUS", (MOD_NONE, 0x57)), ("KP_ENTER", (MOD_NONE, 0x58)),
  ("KP_1", (MOD_NONE, 0x59)), ("KP_2", (MOD_NONE, 0x5A)), ("KP_3", (MOD_NONE, 0x5B)),
  ("KP_4", (MOD_NONE, 0x5C)), ("KP_5", (MOD_NONE, 0x5D)), ("KP_6", (MOD_NONE, 0x5E)),
  ("KP_7", (MOD_NONE, 0x5F)), ("KP_8", (MOD_NONE, 0x60)), ("KP_9", (MOD_NONE, 0x61)),
  ("KP_0", (MOD_NONE, 0x62)), ("KP_PERIOD", (MOD_NONE, 0x63)),
  ("LEFT_CTRL", (MOD_LEFT_CTRL, 0x00)), ("LEFT_SHIFT", (MOD_LEFT_SHIFT, 0x00)),
  ("LEFT_ALT", (MOD_LEFT_ALT, 0x00)), ("LEFT_GUI", (MOD_LEFT_GUI, 0x00)),
  ("RIGHT_CTRL", (MOD_RIGHT_CTRL, 0x00)), ("RIGHT_SHIFT", (MOD_RIGHT_SHIFT, 0x00)),
  ("RIGHT_ALT", (MOD_RIGHT_ALT, 0x00)), ("RIGHT_GUI", (MOD_RIGHT_GUI, 0x00)),
  ("VOLUME_UP", (MOD_NONE, 0x80)), ("VOLUME_DOWN", (MOD_NONE, 0x81)),
  ("MUTE", (MOD_NONE, 0x7F)), ("PLAY_PAUSE", (MOD_NONE, 0xCD)),
  ("NEXT_TRACK", (MOD_NONE, 0xB5)), ("PREV_TRACK", (MOD_NONE, 0xB6)),
  ("STOP_MEDIA", (MOD_NONE, 0xB7)),
  ("NONE", (MOD_NONE, 0x00))]

/-- Model of the Python `str.upper()` on one character (ASCII fragment:
the key names occurring in this program are all ASCII). -/
def upperChar (c : Char) : Char :=
  if 97 ≤ c.toNat ∧ c.toNat ≤ 122 then Char.ofNat (c.toNat - 32) else c

/-- Model of the Python `str.upper()` (ASCII fragment). -/
def upperStr (s : String) : String := String.mk (s.data.map upperChar)

/-- First-match association-list lookup; models `dict.get` on the
unique-key dictionaries used by this program. -/
def alookup {α β : Type} [DecidableEq α] (a : α) : List (α × β) → Option β
  | [] => none
  | p :: t => if p.1 = a then some p.2 else alookup a t

/-- KeycodeMap.get_codes: upper-case the name, look it up, default to
`(MOD_NONE, 0x00)` for "NONE" or unknown names.  A total function: the
source never raises here. -/
def get_codes (key_name : String) : Nat × Nat :=
  (alookup (upperStr key_name) NAME_TO_CODE).getD (MOD_NONE, 0x00)

/-! ## hid_service.py: the 8-byte report and `_update_report_for_keys` -/

/-- The keyboard report `[modifier, reserved, k1 .. k6]`:
`report_state[0]` is `modifier`, `report_state[1]` is `reserved`,
`report_state[2..7]` are `slots`. -/
@[ext] structure Report where
  modifier : Nat
  reserved : Nat
  slots : List Nat
deriving DecidableEq, Repr

def zeroReport : Report := { modifier := 0, reserved := 0, slots := [0, 0, 0, 0, 0, 0] }

/-- Occupy the first `0x00` slot with `c` (no change when no slot is
free).  This is the `first_empty_slot` assignment in the press branch of
`_update_report_for_keys`. -/
def fillFirstEmpty : List Nat → Nat → List Nat
  | [], _ => []
  | s :: rest, c => if s = 0 then c :: rest else s :: fillFirstEmpty rest c

/-- Press branch of the slot loop in `_update_report_for_keys`: if the
code is already present the report is unchanged (the source loop breaks
early, and any `first_empty_slot` it recorded before the break is then
unused); otherwise the first empty slot, if any, receives the code;
with no empty slot the key is dropped (rollover). -/
def pressCode (slots : List Nat) (c : Nat) : List Nat :=
  if c ∈ slots then slots else fillFirstEmpty slots c

/-- Release branch of the slot loop in `_update_report_for_keys`: zero
the first slot holding `c` and break; no repacking. -/
def releaseCode : List Nat → Nat → List Nat
  | [], _ => []
  | s :: rest, c => if s = c then 0 :: rest else s :: releaseCode rest c

/-- The body of the per-key loop in `_update_report_for_keys`.  The
modifier release `report_state[0] &= ~mask` acts on a byte, which for
values below 256 is `modifier &&& (255 ^^^ mask)`. -/
def applyKey (press : Bool) (r : Report) (key_name : String) : Report :=
  if key_name = "" ∨ upperStr key_name = "NONE" then r
  else
    let mc := get_codes key_name
    let r1 := if mc.1 ≠ MOD_NONE then
        (if press then { r with modifier := r.modifier ||| mc.1 }
         else { r with modifier := r.modifier &&& (255 ^^^ mc.1) })
      else r
    if mc.2 ≠ 0x00 then
      (if press then { r1 with slots := pressCode r1.slots mc.2 }
       else { r1 with slots := releaseCode r1.slots mc.2 })
    else r1

/-- HidService._update_report_for_keys over a list of key names. -/
def update_report_for_keys (r : Report) (key_names_list : List String)
    (press : Bool) : Report :=
  key_names_list.foldl (applyKey press) r

/-- A queued command, as produced by `InputHandler.process_event`
(`{'type': 'press'|'release', 'keys': [...]}`). -/
inductive Command where
  | press (keys : List String)
  | release (keys : List String)
deriving DecidableEq, Repr

/-- The dispatch on `command['type']` inside
`_command_queue_processor_cb`. -/
def applyCommand (r : Report) : Command → Report
  | Command.press ks => update_report_for_keys r ks true
  | Command.release ks => update_report_for_keys r ks false

/-! ## hid_service.py: transport and connection lifecycle

`HidService` state relevant to the claims: `report_state`,
`last_sent_report_state`, whether `active_connection_profile` is set,
and (for observing transmissions) the ordered log of reports handed to
`os.write` on the interrupt channel.  Success or failure of `os.write`
is an environment choice, modelled by the `sendOk` flag. -/

structure HidState where
  report_state : Report
  last_sent_report_state : Report
  active_connection : Bool
  sent_reports : List Report
deriving DecidableEq, Repr

/-- HidService.unregister_active_connection for the currently active
profile: clears the connection and resets both report states to
all-zero.  All disconnect paths (HUP/ERR, empty read, OSError on read
or write) reach this through
`HidProfile.cleanup_connection_resources`. -/
def unregister_active_connection (s : HidState) : HidState :=
  { s with active_connection := false,
           report_state := zeroReport,
           last_sent_report_state := zeroReport }

/-- HidProfile.send_report: hands the bytes to `os.write` when a
channel is attached (recorded in `sent_reports`); on an `OSError` the
connection is torn down (`cleanup_connection_resources`, which reaches
`unregister_active_connection`).  Returns the success flag. -/
def send_report (sendOk : Bool) (report : Report) (s : HidState) : Bool × HidState :=
  if s.active_connection then
    let s1 := { s with sent_reports := s.sent_reports ++ [report] }
    if sendOk then (true, s1) else (false, unregister_active_connection s1)
  else (false, s)

/-- HidService._try_send_current_report_if_changed. -/
def try_send_current_report_if_changed (sendOk : Bool) (s : HidState) : HidState :=
  if s.report_state ≠ s.last_sent_report_state then
    if s.active_connection then
      let res := send_report sendOk s.report_state s
      if res.1 then { res.2 with last_sent_report_state := s.report_state }
      else res.2
    else s
  else s

/-- HidService._send_empty_report. -/
def send_empty_report (sendOk : Bool) (s : HidState) : HidState :=
  if s.active_connection then
    let res := send_report sendOk zeroReport s
    if res.1 then
      { res.2 with last_sent_report_state := zeroReport, report_state := zeroReport }
    else res.2
  else s

/-- HidService.register_active_connection: tear down a previous
connection if one exists, install the new one, and immediately send the
all-zero report. -/
def register_active_connection (sendOk : Bool) (s : HidState) : HidState :=
  let s1 := if s.active_connection then unregister_active_connection s else s
  let s2 := { s1 with active_connection := true }
  send_empty_report sendOk s2

/-- HidService._command_queue_processor_cb: drain every queued command,
then make a single send attempt when at least one command was
processed. -/
def command_queue_processor_cb (sendOk : Bool) (s : HidState)
    (queue : List Command) : HidState :=
  let s1 := queue.foldl
    (fun st c => { st with report_state := applyCommand st.report_state c }) s
  if queue.isEmpty then s1 else try_send_current_report_if_changed sendOk s1

/-! ## input_handler.py: event classification and command emission -/

/-- A normalized kernel input event `(type, code, value)`. -/
structure CanonicalEvent where
  etype : Nat
  code : Nat
  value : Int
deriving DecidableEq, Repr

def EV_SYN : Nat := 0x00
def EV_KEY : Nat := 0x01
def EV_REL : Nat := 0x02
def REL_DIAL : Nat := 0x07
def KEY_ENTER : Nat := 28
def KEY_1 : Nat := 2
def KEY_2 : Nat := 3
def KEY_3 : Nat := 4
def KEY_4 : Nat := 5

/-- EVENT_TUPLE_TO_ACTION, the reverse map built from EVENT_MAPPINGS in
`InputHandler.__init__` (no colliding triggers, so the comprehension
yields exactly these pairs). -/
def EVENT_TUPLE_TO_ACTION : List ((Nat × Nat × Int) × String) := [
  ((EV_REL, REL_DIAL, 1), "knob_cw"),
  ((EV_REL, REL_DIAL, -1), "knob_ccw"),
  ((EV_KEY, KEY_ENTER, 1), "front_button_press"),
  ((EV_KEY, KEY_ENTER, 0), "front_button_release"),
  ((EV_KEY, KEY_1, 1), "top_button_1_press"),
  ((EV_KEY, KEY_1, 0), "top_button_1_release"),
  ((EV_KEY, KEY_2, 1), "top_button_2_press"),
  ((EV_KEY, KEY_2, 0), "top_button_2_release"),
  ((EV_KEY, KEY_3, 1), "top_button_3_press"),
  ((EV_KEY, KEY_3, 0), "top_button_3_release"),
  ((EV_KEY, KEY_4, 1), "top_button_4_press"),
  ((EV_KEY, KEY_4, 0), "top_button_4_release")]

/-- A mapping-table entry `{"type": ..., "keys": [...]}` as read by
`process_event` (`command_config.get("type")` may be absent, hence
`Option`; `command_config.get("keys", [])` defaults to `[]`). -/
structure MappingEntry where
  type : Option String
  keys : List String
deriving DecidableEq, Repr

/-- The mapping table from ActionId to MappingEntry. -/
abbrev Mappings : Type := List (String × MappingEntry)

/-- InputHandler.process_event: classify the event, resolve the action
in the current mapping snapshot, and return the commands put on the
queue, in order. -/
def process_event (mappings : Mappings) (ev : CanonicalEvent) : List Command :=
  if ev.etype = EV_SYN then []
  else
    match alookup (ev.etype, ev.code, ev.value) EVENT_TUPLE_TO_ACTION with
    | none => []
    | some action_key =>
      match alookup action_key mappings with
      | none => []
      | some cfg =>
        if cfg.keys = [] ∧ cfg.type ≠ some "none" then []
        else if cfg.type = some "key_press" then [Command.press cfg.keys]
        else if cfg.type = some "key_release" then [Command.release cfg.keys]
        else if cfg.type = some "key_tap" then
          [Command.press cfg.keys, Command.release cfg.keys]
        else []

/-! ## config_manager.py and web_server.py: the mapping store

For claim C9 the aliasing behaviour matters, so the store is modelled
with an explicit object heap: `heap` holds the dictionary objects,
references are indices into it, and `configRef` is the object currently
bound to `self.config`. -/

structure ConfigHeap where
  heap : List Mappings
  configRef : Nat
deriving DecidableEq

def heapGet (h : List Mappings) (r : Nat) : Mappings := h.getD r []

/-- ConfigManager.get_mappings: `json.loads(json.dumps(self.config))`
allocates a fresh deep copy, value-equal to the stored table; the
caller receives a reference to the new object. -/
def get_mappings (s : ConfigHeap) : ConfigHeap × Nat :=
  ({ s with heap := s.heap ++ [heapGet s.heap s.configRef] }, s.heap.length)

/-- ConfigManager.update_mappings on a dict argument:
`self.config = new_mappings` rebinds the attribute to the object passed
by the caller (no copy), then `save_config` is attempted; its success
flag (file I/O, environment-determined) is returned. -/
def update_mappings (s : ConfigHeap) (newRef : Nat) (saveOk : Bool) :
    ConfigHeap × Bool :=
  ({ s with configRef := newRef }, saveOk)

/-- Mutation of a heap object through a reference held by a caller. -/
def mutateRef (s : ConfigHeap) (r : Nat) (v : Mappings) : ConfigHeap :=
  { s with heap := s.heap.set r v }

/-! For claims C8 the value-level view suffices: the stored table and
the snapshot cached by the dispatcher (`InputHandler.mappings`). -/

structure SystemState where
  cm_config : Mappings
  ih_mappings : Mappings

/-- InputHandler.load_mappings: replace the dispatcher snapshot with
`config_manager.get_mappings()` (a value-equal deep copy). -/
def load_mappings (s : SystemState) : SystemState :=
  { s with ih_mappings := s.cm_config }

/-- The administrative boundary (`POST /api/mappings` in
web_server.py): `update_mappings` replaces the stored table; on save
success the handler calls `input_handler.load_mappings()`. -/
def api_set_mappings (s : SystemState) (new : Mappings) (saveOk : Bool) :
    SystemState :=
  let s1 := { s with cm_config := new }
  if saveOk then load_mappings s1 else s1

/-- Dispatch of one event against the dispatcher state. -/
def dispatch (s : SystemState) (ev : CanonicalEvent) : List Command :=
  process_event s.ih_mappings ev

/-! ## Helper lemmas: lookup, upper-casing, slot operations -/

lemma alookup_eq_none {α β : Type} [DecidableEq α] (a : α) (l : List (α × β))
    (h : a ∉ l.map Prod.fst) : alookup a l = none := by
  induction l with
  | nil => rfl
  | cons p t ih =>
    simp only [List.map_cons, List.mem_cons, not_or] at h
    have h1 : p.1 ≠ a := fun e => h.1 e.symm
    simp [alookup, h1, ih h.2]

lemma alookup_mem {α β : Type} [DecidableEq α] {a : α} {b : β} :
    ∀ {l : List (α × β)}, alookup a l = some b → (a, b) ∈ l := by
  intro l
  induction l with
  | nil => intro h; cases h
  | cons p t ih =>
    intro h
    by_cases h1 : p.1 = a
    · obtain ⟨p1, p2⟩ := p
      simp only [alookup, if_pos h1, Option.some.injEq] at h
      simp only at h1
      subst h1; subst h
      exact List.mem_cons_self _ _
    · simp only [alookup, if_neg h1] at h
      exact List.mem_cons_of_mem _ (ih h)

lemma upperChar_idem (c : Char) : upperChar (upperChar c) = upperChar c := by
  unfold upperChar
  by_cases h : 97 ≤ c.toNat ∧ c.toNat ≤ 122
  · rw [if_pos h]
    have hv : (Char.ofNat (c.toNat - 32)).toNat = c.toNat - 32 := by
      have hvalid : (c.toNat - 32).isValidChar := Or.inl (by omega)
      rw [Char.ofNat, dif_pos hvalid]
      rfl
    rw [if_neg (by rw [hv]; omega)]
  · rw [if_neg h, if_neg h]

lemma upperStr_idem (s : String) : upperStr (upperStr s) = upperStr s := by
  unfold upperStr
  simp only [List.map_map]
  congr 1
  exact List.map_congr_left fun c _ => upperChar_idem c

/-- Every modifier mask and usage code in the table fits in a byte. -/
lemma table_codes_lt :
    ∀ p ∈ NAME_TO_CODE, p.2.1 < 256 ∧ p.2.2 < 256 := by decide

lemma get_codes_lt (k : String) : (get_codes k).1 < 256 ∧ (get_codes k).2 < 256 := by
  unfold get_codes
  cases h : alookup (upperStr k) NAME_TO_CODE with
  | none => simp [ MOD_NONE]
  | some p => simpa using table_codes_lt _ (alookup_mem h)

lemma fillFirstEmpty_of_no_zero {slots : List Nat} (c : Nat)
    (h : ∀ x ∈ slots, x ≠ 0) : fillFirstEmpty slots c = slots := by
  induction slots with
  | nil => rfl
  | cons s t ih =>
    have hs : s ≠ 0 := h s (List.mem_cons_self _ _)
    simp [fillFirstEmpty, hs, ih fun x hx => h x (List.mem_cons_of_mem _ hx)]

lemma releaseCode_not_mem {slots : List Nat} {c : Nat} (h : c ∉ slots) :
    releaseCode slots c = slots := by
  induction slots with
  | nil => rfl
  | cons s t ih =>
    simp only [List.mem_cons, not_or] at h
    simp [releaseCode, Ne.symm h.1, ih h.2]

/-- The per-key update touches the slots exactly as the relevant branch
of the slot loop does. -/
lemma applyKey_slots (p : Bool) (r : Report) (k : String) :
    (applyKey p r k).slots =
      if k = "" ∨ upperStr k = "NONE" then r.slots
      else if (get_codes k).2 ≠ 0 then
        (if p then pressCode r.slots (get_codes k).2
         else releaseCode r.slots (get_codes k).2)
      else r.slots := by
  by_cases h : k = "" ∨ upperStr k = "NONE"
  · simp [applyKey, h]
  · cases p <;>
      by_cases h1 : (get_codes k).1 ≠ MOD_NONE <;>
        by_cases h2 : (get_codes k).2 ≠ 0 <;>
          simp [applyKey, h, h1, h2]

lemma applyKey_modifier (p : Bool) (r : Report) (k : String) :
    (applyKey p r k).modifier =
      if k = "" ∨ upperStr k = "NONE" then r.modifier
      else if (get_codes k).1 ≠ MOD_NONE then
        (if p then r.modifier ||| (get_codes k).1
         else r.modifier &&& (255 ^^^ (get_codes k).1))
      else r.modifier := by
  by_cases h : k = "" ∨ upperStr k = "NONE"
  · simp [applyKey, h]
  · cases p <;>
      by_cases h1 : (get_codes k).1 ≠ MOD_NONE <;>
        by_cases h2 : (get_codes k).2 ≠ 0 <;>
          simp [applyKey, h, h1, h2]

lemma applyKey_reserved (p : Bool) (r : Report) (k : String) :
    (applyKey p r k).reserved = r.reserved := by
  by_cases h : k = "" ∨ upperStr k = "NONE"
  · simp [applyKey, h]
  · cases p <;>
      by_cases h1 : (get_codes k).1 ≠ MOD_NONE <;>
        by_cases h2 : (get_codes k).2 ≠ 0 <;>
          simp [applyKey, h, h1, h2]

/-! ## Claim C1: a 7th distinct key is dropped, not queued -/

/-- C1.  For every ReportState whose six key slots are all occupied by
non-zero usage codes, a Press command for a further distinct
non-modifier key (usage code not already present in any slot) leaves
all six key slots unchanged: the overflowed key is dropped. -/
theorem C1_seventh_key_press_drops (r : Report) (k : String)
    (hlen : r.slots.length = 6)
    (hfull : ∀ x ∈ r.slots, x ≠ 0)
    (hnew : (get_codes k).2 ∉ r.slots)
    (hnonmod : (get_codes k).2 ≠ 0) :
    (applyCommand r (Command.press [k])).slots = r.slots := by
  show (update_report_for_keys r [k] true).slots = r.slots
  have : update_report_for_keys r [k] true = applyKey true r k := rfl
  rw [this, applyKey_slots]
  by_cases h : k = "" ∨ upperStr k = "NONE"
  · rw [if_pos h]
  · rw [if_neg h, if_pos hnonmod]
    show pressCode r.slots (get_codes k).2 = r.slots
    rw [pressCode, if_neg hnew]
    exact fillFirstEmpty_of_no_zero _ hfull

/-- A concrete full report used in witnesses. -/
def fullReport : Report := { modifier := 0, reserved := 0, slots := [4, 5, 6, 7, 8, 9] }

theorem C1_witness :
    fullReport.slots.length = 6
    ∧ (∀ x ∈ fullReport.slots, x ≠ 0)
    ∧ (get_codes "Q").2 ∉ fullReport.slots
    ∧ (get_codes "Q").2 ≠ 0
    ∧ (applyCommand fullReport (Command.press ["Q"])).slots = fullReport.slots :=
  ⟨by decide, by decide, by decide, by decide,
   C1_seventh_key_press_drops fullReport "Q" (by decide) (by decide) (by decide)
     (by decide)⟩

/-! ## Claim C3: unknown key names resolve to (MOD_NONE, 0x00) -/

/-- C3 fails as stated: the string "a" is not itself a key of the
table (the table holds "A"), yet `get_codes` resolves it to
`(MOD_NONE, 0x04)`, not `(MOD_NONE, 0x00)`, because the name is
upper-cased before the lookup. -/
theorem C3_counterexample :
    "a" ∉ NAME_TO_CODE.map Prod.fst
    ∧ get_codes "a" = (MOD_NONE, 0x04)
    ∧ (MOD_NONE, 0x04) ≠ (MOD_NONE, 0x00) := by
  refine ⟨by decide, by decide, by decide⟩

/-- C3 (amended).  For every key-name string whose upper-cased form is
not present in the keycode table, `get_codes` returns
`(MOD_NONE, 0x00)`; resolution is a total function and never raises. -/
theorem C3_unknown_name_resolves_to_none (s : String)
    (h : upperStr s ∉ NAME_TO_CODE.map Prod.fst) :
    get_codes s = (MOD_NONE, 0x00) := by
  unfold get_codes
  rw [alookup_eq_none _ _ h]
  rfl

theorem C3_witness :
    upperStr "foo_bar" ∉ NAME_TO_CODE.map Prod.fst
    ∧ get_codes "foo_bar" = (MOD_NONE, 0x00) :=
  ⟨by decide, C3_unknown_name_resolves_to_none "foo_bar" (by decide)⟩

/-! ## Claim C10: key-name resolution is case-insensitive -/

/-- C10.  For every key-name string present in the table under its
upper-case form, resolution of the string equals resolution of its
upper-cased form (names are upper-cased before lookup, and upper-casing
is idempotent). -/
theorem C10_case_insensitive_resolution (s : String)
    (h : upperStr s ∈ NAME_TO_CODE.map Prod.fst) :
    get_codes s = get_codes (upperStr s) := by
  unfold get_codes
  rw [upperStr_idem]

theorem C10_witness :
    upperStr "a" ∈ NAME_TO_CODE.map Prod.fst
    ∧ get_codes "a" = get_codes "A"
    ∧ get_codes "a" = (MOD_NONE, 0x04) := by
  refine ⟨by decide, ?_, by decide⟩
  have h1 : upperStr "a" = "A" := by decide
  have h2 := C10_case_insensitive_resolution "a" (by decide)
  rwa [h1] at h2

/-! ## Claim C7: slot uniqueness invariant -/

/-- A non-zero usage code appears at most once across the key slots. -/
def slotUnique (slots : List Nat) : Prop := ∀ c, c ≠ 0 → slots.count c ≤ 1

lemma count_fillFirstEmpty_self {slots : List Nat} {c : Nat} (h : c ∉ slots) :
    (fillFirstEmpty slots c).count c ≤ 1 := by
  induction slots with
  | nil => simp [fillFirstEmpty]
  | cons s t ih =>
    simp only [List.mem_cons, not_or] at h
    by_cases hs : s = 0
    · have e : fillFirstEmpty (s :: t) c = c :: t := by simp [fillFirstEmpty, hs]
      rw [e, List.count_cons_self]
      have h2 : t.count c = 0 := List.count_eq_zero.mpr h.2
      omega
    · have e : fillFirstEmpty (s :: t) c = s :: fillFirstEmpty t c := by
        simp [fillFirstEmpty, hs]
      rw [e, List.count_cons_of_ne h.1]
      exact ih h.2

lemma count_fillFirstEmpty_other {slots : List Nat} {c d : Nat} (hd : d ≠ c)
    (hd0 : d ≠ 0) : (fillFirstEmpty slots c).count d = slots.count d := by
  induction slots with
  | nil => rfl
  | cons s t ih =>
    by_cases hs : s = 0
    · have e : fillFirstEmpty (s :: t) c = c :: t := by simp [fillFirstEmpty, hs]
      rw [e, List.count_cons_of_ne hd, hs, List.count_cons_of_ne hd0]
    · have e : fillFirstEmpty (s :: t) c = s :: fillFirstEmpty t c := by
        simp [fillFirstEmpty, hs]
      rw [e, List.count_cons, List.count_cons, ih]

lemma count_releaseCode_le {slots : List Nat} {c d : Nat} (hd0 : d ≠ 0) :
    (releaseCode slots c).count d ≤ slots.count d := by
  induction slots with
  | nil => exact Nat.le_refl _
  | cons s t ih =>
    by_cases hs : s = c
    · have e : releaseCode (s :: t) c = 0 :: t := by simp [releaseCode, hs]
      rw [e, List.count_cons_of_ne hd0, List.count_cons]
      exact Nat.le_add_right _ _
    · have e : releaseCode (s :: t) c = s :: releaseCode t c := by
        simp [releaseCode, hs]
      rw [e, List.count_cons, List.count_cons]
      exact Nat.add_le_add_right ih _

lemma slotUnique_pressCode {slots : List Nat} (c : Nat) (h : slotUnique slots) :
    slotUnique (pressCode slots c) := by
  unfold pressCode
  by_cases hm : c ∈ slots
  · simpa [hm] using h
  · simp only [hm, if_false]
    intro d hd
    by_cases hdc : d = c
    · subst hdc; exact count_fillFirstEmpty_self hm
    · rw [count_fillFirstEmpty_other hdc hd]; exact h d hd

lemma slotUnique_releaseCode {slots : List Nat} (c : Nat) (h : slotUnique slots) :
    slotUnique (releaseCode slots c) :=
  fun d hd => Nat.le_trans (count_releaseCode_le hd) (h d hd)

lemma slotUnique_applyKey (p : Bool) (r : Report) (k : String)
    (h : slotUnique r.slots) : slotUnique (applyKey p r k).slots := by
  rw [applyKey_slots]
  by_cases h0 : k = "" ∨ upperStr k = "NONE"
  · simpa [h0] using h
  · rw [if_neg h0]
    by_cases h1 : (get_codes k).2 ≠ 0
    · rw [if_pos h1]
      cases p
      · simpa using slotUnique_releaseCode _ h
      · simpa using slotUnique_pressCode _ h
    · simpa [h1] using h

lemma slotUnique_update (ks : List String) (p : Bool) :
    ∀ r : Report, slotUnique r.slots →
      slotUnique (update_report_for_keys r ks p).slots := by
  induction ks with
  | nil => exact fun r h => h
  | cons k t ih => exact fun r h => ih _ (slotUnique_applyKey p r k h)

lemma slotUnique_applyCommand (r : Report) (c : Command)
    (h : slotUnique r.slots) : slotUnique (applyCommand r c).slots := by
  cases c with
  | press ks => exact slotUnique_update ks true r h
  | release ks => exact slotUnique_update ks false r h

/-- C7.  Starting from the all-zero report, every sequence of
Press/Release commands keeps the invariant that a non-zero usage code
occupies at most one of the six key slots. -/
theorem C7_slot_uniqueness (cmds : List Command) :
    slotUnique ((cmds.foldl applyCommand zeroReport).slots) := by
  have hz : slotUnique zeroReport.slots := by
    intro c hc
    have : c ∉ zeroReport.slots := by simp [zeroReport, hc]
    simp [List.count_eq_zero.mpr this]
  suffices h : ∀ r : Report, slotUnique r.slots →
      slotUnique ((cmds.foldl applyCommand r).slots) from h zeroReport hz
  induction cmds with
  | nil => exact fun r h => h
  | cons c t ih => exact fun r h => ih _ (slotUnique_applyCommand r c h)

/-! ## Claim C2: press-then-release round trip

The per-key update acts independently on the modifier byte and on the
slots, so `update_report_for_keys` decomposes into a fold of slot
operations over the resolved non-zero usage codes and a fold of
bit operations over the resolved non-zero modifier masks. -/

/-- The non-zero usage codes of the keys a command actually processes,
in order. -/
def codesOf : List String → List Nat
  | [] => []
  | k :: t =>
    if k = "" ∨ upperStr k = "NONE" then codesOf t
    else if (get_codes k).2 ≠ 0 then (get_codes k).2 :: codesOf t
    else codesOf t

/-- The non-zero modifier masks of the keys a command actually
processes, in order. -/
def masksOf : List String → List Nat
  | [] => []
  | k :: t =>
    if k = "" ∨ upperStr k = "NONE" then masksOf t
    else if (get_codes k).1 ≠ MOD_NONE then (get_codes k).1 :: masksOf t
    else masksOf t

def pressFold (slots : List Nat) (cs : List Nat) : List Nat := cs.foldl pressCode slots

def releaseFold (slots : List Nat) (cs : List Nat) : List Nat := cs.foldl releaseCode slots

def pressModsFold (m : Nat) (ms : List Nat) : Nat := ms.foldl (fun x a => x ||| a) m

def releaseModsFold (m : Nat) (ms : List Nat) : Nat :=
  ms.foldl (fun x a => x &&& (255 ^^^ a)) m

lemma pressFold_cons (slots : List Nat) (c : Nat) (cs : List Nat) :
    pressFold slots (c :: cs) = pressFold (pressCode slots c) cs := rfl

lemma releaseFold_cons (slots : List Nat) (c : Nat) (cs : List Nat) :
    releaseFold slots (c :: cs) = releaseFold (releaseCode slots c) cs := rfl

lemma update_slots_press (ks : List String) :
    ∀ r : Report,
      (update_report_for_keys r ks true).slots = pressFold r.slots (codesOf ks) := by
  induction ks with
  | nil => intro r; rfl
  | cons k t ih =>
    intro r
    have e : update_report_for_keys r (k :: t) true
        = update_report_for_keys (applyKey true r k) t true := rfl
    rw [e, ih, applyKey_slots]
    by_cases h0 : k = "" ∨ upperStr k = "NONE"
    · simp [h0, codesOf]
    · by_cases h1 : (get_codes k).2 ≠ 0
      · simp [h0, h1, codesOf, pressFold_cons]
      · simp [h0, h1, codesOf]

lemma update_slots_release (ks : List String) :
    ∀ r : Report,
      (update_report_for_keys r ks false).slots = releaseFold r.slots (codesOf ks) := by
  induction ks with
  | nil => intro r; rfl
  | cons k t ih =>
    intro r
    have e : update_report_for_keys r (k :: t) false
        = update_report_for_keys (applyKey false r k) t false := rfl
    rw [e, ih, applyKey_slots]
    by_cases h0 : k = "" ∨ upperStr k = "NONE"
    · simp [h0, codesOf]
    · by_cases h1 : (get_codes k).2 ≠ 0
      · simp [h0, h1, codesOf, releaseFold_cons]
      · simp [h0, h1, codesOf]

lemma update_modifier_press (ks : List String) :
    ∀ r : Report,
      (update_report_for_keys r ks true).modifier
        = pressModsFold r.modifier (masksOf ks) := by
  induction ks with
  | nil => intro r; rfl
  | cons k t ih =>
    intro r
    have e : update_report_for_keys r (k :: t) true
        = update_report_for_keys (applyKey true r k) t true := rfl
    rw [e, ih, applyKey_modifier]
    by_cases h0 : k = "" ∨ upperStr k = "NONE"
    · simp [h0, masksOf]
    · by_cases h1 : (get_codes k).1 ≠ MOD_NONE
      · simp [h0, h1, masksOf, pressModsFold]
      · simp [h0, h1, masksOf]

lemma update_modifier_release (ks : List String) :
    ∀ r : Report,
      (update_report_for_keys r ks false).modifier
        = releaseModsFold r.modifier (masksOf ks) := by
  induction ks with
  | nil => intro r; rfl
  | cons k t ih =>
    intro r
    have e : update_report_for_keys r (k :: t) false
        = update_report_for_keys (applyKey false r k) t false := rfl
    rw [e, ih, applyKey_modifier]
    by_cases h0 : k = "" ∨ upperStr k = "NONE"
    · simp [h0, masksOf]
    · by_cases h1 : (get_codes k).1 ≠ MOD_NONE
      · simp [h0, h1, masksOf, releaseModsFold]
      · simp [h0, h1, masksOf]

lemma update_reserved (ks : List String) (p : Bool) :
    ∀ r : Report, (update_report_for_keys r ks p).reserved = r.reserved := by
  induction ks with
  | nil => intro r; rfl
  | cons k t ih =>
    intro r
    have e : update_report_for_keys r (k :: t) p
        = update_report_for_keys (applyKey p r k) t p := rfl
    rw [e, ih, applyKey_reserved]

lemma mem_fillFirstEmpty {slots : List Nat} {c d : Nat}
    (h : d ∈ fillFirstEmpty slots c) : d ∈ slots ∨ d = c := by
  induction slots with
  | nil => cases h
  | cons s t ih =>
    by_cases hs : s = 0
    · rw [show fillFirstEmpty (s :: t) c = c :: t from by simp [fillFirstEmpty, hs]] at h
      rcases List.mem_cons.mp h with h1 | h1
      · exact Or.inr h1
      · exact Or.inl (List.mem_cons_of_mem _ h1)
    · rw [show fillFirstEmpty (s :: t) c = s :: fillFirstEmpty t c from by
        simp [fillFirstEmpty, hs]] at h
      rcases List.mem_cons.mp h with h1 | h1
      · exact Or.inl (h1 ▸ List.mem_cons_self _ _)
      · rcases ih h1 with h2 | h2
        · exact Or.inl (List.mem_cons_of_mem _ h2)
        · exact Or.inr h2

lemma mem_pressCode {slots : List Nat} {c d : Nat}
    (h : d ∈ pressCode slots c) : d ∈ slots ∨ d = c := by
  unfold pressCode at h
  by_cases hm : c ∈ slots
  · rw [if_pos hm] at h; exact Or.inl h
  · rw [if_neg hm] at h; exact mem_fillFirstEmpty h

lemma mem_pressFold {cs : List Nat} :
    ∀ {slots : List Nat} {d : Nat}, d ∈ pressFold slots cs → d ∈ slots ∨ d ∈ cs := by
  induction cs with
  | nil => intro slots d h; exact Or.inl h
  | cons c t ih =>
    intro slots d h
    rw [pressFold_cons] at h
    rcases ih h with h1 | h1
    · rcases mem_pressCode h1 with h2 | h2
      · exact Or.inl h2
      · exact Or.inr (h2 ▸ List.mem_cons_self _ _)
    · exact Or.inr (List.mem_cons_of_mem _ h1)

lemma not_mem_releaseCode {slots : List Nat} {c d : Nat} (h : c ∉ slots)
    (hc : c ≠ 0) : c ∉ releaseCode slots d := by
  induction slots with
  | nil => simp [releaseCode]
  | cons s t ih =>
    simp only [List.mem_cons, not_or] at h
    by_cases hs : s = d
    · rw [show releaseCode (s :: t) d = 0 :: t from by simp [releaseCode, hs]]
      simp only [List.mem_cons, not_or]
      exact ⟨hc, h.2⟩
    · rw [show releaseCode (s :: t) d = s :: releaseCode t d from by
        simp [releaseCode, hs]]
      simp only [List.mem_cons, not_or]
      exact ⟨h.1, ih h.2⟩

/-- Releasing a code that is absent from the slots is a no-op, so such
codes can be dropped from a release fold. -/
lemma releaseFold_skip {c : Nat} (hc : c ≠ 0) :
    ∀ (cs : List Nat) (X : List Nat), c ∉ X →
      releaseFold X cs = releaseFold X (cs.filter (fun d => d ≠ c)) := by
  intro cs
  induction cs with
  | nil => intro X _; rfl
  | cons d t ih =>
    intro X hX
    by_cases hdc : d = c
    · rw [show (d :: t).filter (fun d => decide (d ≠ c)) = t.filter (fun d => decide (d ≠ c))
          from by simp [hdc]]
      rw [releaseFold_cons, releaseCode_not_mem (hdc ▸ hX)]
      exact ih X hX
    · rw [show (d :: t).filter (fun d => decide (d ≠ c))
            = d :: t.filter (fun d => decide (d ≠ c)) from by simp [hdc]]
      rw [releaseFold_cons, releaseFold_cons]
      exact ih _ (not_mem_releaseCode hX hc)

/-- A head slot different from every released code is untouched by a
release fold. -/
lemma releaseFold_cons_ne {s : Nat} :
    ∀ (cs : List Nat) (Y : List Nat), (∀ c ∈ cs, c ≠ s) →
      releaseFold (s :: Y) cs = s :: releaseFold Y cs := by
  intro cs
  induction cs with
  | nil => intro Y _; rfl
  | cons c t ih =>
    intro Y h
    have hcs : s ≠ c := Ne.symm (h c (List.mem_cons_self _ _))
    rw [releaseFold_cons, show releaseCode (s :: Y) c = s :: releaseCode Y c from by
      simp [releaseCode, hcs]]
    exact ih _ fun d hd => h d (List.mem_cons_of_mem _ hd)

/-- A non-zero head slot distributes out of a press fold; presses of
the head code itself are no-ops and can be filtered away. -/
lemma pressFold_cons_ne_zero {s : Nat} (hs : s ≠ 0) :
    ∀ (cs : List Nat) (rest : List Nat),
      pressFold (s :: rest) cs = s :: pressFold rest (cs.filter (fun c => c ≠ s)) := by
  intro cs
  induction cs with
  | nil => intro rest; rfl
  | cons c t ih =>
    intro rest
    by_cases hcs : c = s
    · rw [show (c :: t).filter (fun c => decide (c ≠ s)) = t.filter (fun c => decide (c ≠ s))
          from by simp [hcs]]
      rw [pressFold_cons, show pressCode (s :: rest) c = s :: rest from by
        simp [pressCode, hcs]]
      exact ih rest
    · rw [show (c :: t).filter (fun c => decide (c ≠ s))
            = c :: t.filter (fun c => decide (c ≠ s)) from by simp [hcs]]
      have e : pressCode (s :: rest) c = s :: pressCode rest c := by
        by_cases hm : c ∈ rest
        · simp [pressCode, hm, hcs]
        · have hm2 : c ∉ s :: rest := by simp [hcs, hm]
          simp [pressCode, hm, hm2, fillFirstEmpty, hs]
      rw [pressFold_cons, e, ih, pressFold_cons]

lemma filter_ne_of_all_ne {s : Nat} (cs : List Nat) (h : ∀ c ∈ cs, c ≠ s) :
    cs.filter (fun c => c ≠ s) = cs := by
  induction cs with
  | nil => rfl
  | cons c t ih =>
    rw [show (c :: t).filter (fun c => decide (c ≠ s))
          = c :: t.filter (fun c => decide (c ≠ s)) from by
        simp [h c (List.mem_cons_self _ _)]]
    rw [ih fun d hd => h d (List.mem_cons_of_mem _ hd)]

/-- Slot-level round trip: pressing a list of fresh non-zero codes and
then releasing the same list restores the slots (this holds even when
some presses overflow and are dropped). -/
lemma slot_roundtrip :
    ∀ (slots cs : List Nat), (∀ c ∈ cs, c ≠ 0) → (∀ c ∈ cs, c ∉ slots) →
      releaseFold (pressFold slots cs) cs = slots := by
  have pressFold_nil : ∀ cs : List Nat, pressFold [] cs = [] := by
    intro cs
    induction cs with
    | nil => rfl
    | cons c t ih => rw [pressFold_cons, show pressCode [] c = [] from rfl]; exact ih
  have releaseFold_nil : ∀ cs : List Nat, releaseFold [] cs = [] := by
    intro cs
    induction cs with
    | nil => rfl
    | cons c t ih => rw [releaseFold_cons, show releaseCode [] c = [] from rfl]; exact ih
  intro slots
  induction slots with
  | nil =>
    intro cs h0 hm
    rw [pressFold_nil, releaseFold_nil]
  | cons s rest IH =>
    intro cs h0 hm
    by_cases hs : s = 0
    · subst hs
      cases cs with
      | nil => rfl
      | cons c t =>
        have hc0 : c ≠ 0 := h0 c (List.mem_cons_self _ _)
        have hcm : c ∉ (0 : Nat) :: rest := hm c (List.mem_cons_self _ _)
        have h1 : pressCode (0 :: rest) c = c :: rest := by
          simp [pressCode, hcm, fillFirstEmpty]
        rw [pressFold_cons, h1,
          pressFold_cons_ne_zero hc0 t rest]
        rw [releaseFold_cons, show releaseCode (c :: pressFold rest (t.filter (fun d => d ≠ c))) c
              = 0 :: pressFold rest (t.filter (fun d => d ≠ c)) from by simp [releaseCode]]
        have ht0 : ∀ d ∈ t, d ≠ (0 : Nat) := fun d hd => h0 d (List.mem_cons_of_mem _ hd)
        rw [releaseFold_cons_ne t _ fun d hd => Ne.symm (Ne.symm (ht0 d hd))]
        have hcX : c ∉ pressFold rest (t.filter (fun d => d ≠ c)) := by
          intro hin
          rcases mem_pressFold hin with h2 | h2
          · exact hcm (List.mem_cons_of_mem _ h2)
          · simp only [List.mem_filter, decide_eq_true_eq] at h2
            exact h2.2 rfl
        rw [releaseFold_skip hc0 t _ hcX]
        rw [IH (t.filter (fun d => d ≠ c))
          (fun d hd => h0 d (List.mem_cons_of_mem _ (List.mem_of_mem_filter hd)))
          (fun d hd => by
            have := hm d (List.mem_cons_of_mem _ (List.mem_of_mem_filter hd))
            simp only [List.mem_cons, not_or] at this
            exact this.2)]
    · have hne : ∀ c ∈ cs, c ≠ s := by
        intro c hc e
        exact hm c hc (e ▸ List.mem_cons_self _ _)
      rw [pressFold_cons_ne_zero hs cs rest, filter_ne_of_all_ne cs hne,
        releaseFold_cons_ne cs _ hne,
        IH cs h0 (fun c hc => by
          have := hm c hc
          simp only [List.mem_cons, not_or] at this
          exact this.2)]

lemma testBit_pressModsFold (i : Nat) :
    ∀ (ms : List Nat) (m : Nat),
      (pressModsFold m ms).testBit i
        = (m.testBit i || ms.any (fun a => a.testBit i)) := by
  intro ms
  induction ms with
  | nil => intro m; simp [pressModsFold]
  | cons a t ih =>
    intro m
    rw [show pressModsFold m (a :: t) = pressModsFold (m ||| a) t from rfl, ih]
    simp [Nat.testBit_lor, Bool.or_assoc]

lemma testBit_releaseModsFold (i : Nat) :
    ∀ (ms : List Nat) (m : Nat),
      (releaseModsFold m ms).testBit i
        = (m.testBit i && ms.all (fun a => ((255 : Nat) ^^^ a).testBit i)) := by
  intro ms
  induction ms with
  | nil => intro m; simp [releaseModsFold]
  | cons a t ih =>
    intro m
    rw [show releaseModsFold m (a :: t) = releaseModsFold (m &&& (255 ^^^ a)) t from rfl, ih]
    simp [Nat.testBit_land, Bool.and_assoc]

/-- Byte-level round trip of the modifier: starting from modifier 0,
OR-ing in a list of masks below 256 and then AND-ing in their byte
complements yields 0 again. -/
lemma mod_roundtrip {ms : List Nat} (h : ∀ a ∈ ms, a < 256) :
    releaseModsFold (pressModsFold 0 ms) ms = 0 := by
  apply Nat.eq_of_testBit_eq
  intro i
  rw [testBit_releaseModsFold, testBit_pressModsFold]
  simp only [Nat.zero_testBit, Bool.false_or]
  cases hany : ms.any (fun a => a.testBit i) with
  | false => simp
  | true =>
    obtain ⟨a, ha, hbit⟩ := List.any_eq_true.mp hany
    have hi : i < 8 := by
      by_contra hge
      push_neg at hge
      have hlt : a < 2 ^ i := by
        have h8 : (256 : Nat) ≤ 2 ^ i := by
          calc (256 : Nat) = 2 ^ 8 := rfl
          _ ≤ 2 ^ i := Nat.pow_le_pow_right (by norm_num) hge
        exact Nat.lt_of_lt_of_le (h a ha) h8
      rw [Nat.testBit_lt_two_pow hlt] at hbit
      cases hbit
    have h255 : (255 : Nat).testBit i = true := by
      rw [show (255 : Nat) = 2 ^ 8 - 1 from rfl, Nat.testBit_two_pow_sub_one]
      simpa using hi
    have hxor : ((255 : Nat) ^^^ a).testBit i = false := by
      rw [Nat.testBit_xor, h255, hbit]
      rfl
    have hall : ms.all (fun a => ((255 : Nat) ^^^ a).testBit i) = false :=
      List.all_eq_false.mpr ⟨a, ha, by simp [hxor]⟩
    rw [hall, Bool.and_false]

lemma mem_codesOf {ks : List String} {c : Nat} (h : c ∈ codesOf ks) :
    c ≠ 0 ∧ ∃ k ∈ ks, (get_codes k).2 = c := by
  induction ks with
  | nil => cases h
  | cons k t ih =>
    unfold codesOf at h
    by_cases h0 : k = "" ∨ upperStr k = "NONE"
    · rw [if_pos h0] at h
      obtain ⟨hne, k1, hk1, he⟩ := ih h
      exact ⟨hne, k1, List.mem_cons_of_mem _ hk1, he⟩
    · rw [if_neg h0] at h
      by_cases h1 : (get_codes k).2 ≠ 0
      · rw [if_pos h1] at h
        rcases List.mem_cons.mp h with h2 | h2
        · exact ⟨h2 ▸ h1, k, List.mem_cons_self _ _, h2.symm⟩
        · obtain ⟨hne, k1, hk1, he⟩ := ih h2
          exact ⟨hne, k1, List.mem_cons_of_mem _ hk1, he⟩
      · rw [if_neg h1] at h
        obtain ⟨hne, k1, hk1, he⟩ := ih h
        exact ⟨hne, k1, List.mem_cons_of_mem _ hk1, he⟩

lemma mem_masksOf {ks : List String} {a : Nat} (h : a ∈ masksOf ks) :
    ∃ k ∈ ks, (get_codes k).1 = a := by
  induction ks with
  | nil => cases h
  | cons k t ih =>
    unfold masksOf at h
    by_cases h0 : k = "" ∨ upperStr k = "NONE"
    · rw [if_pos h0] at h
      obtain ⟨k1, hk1, he⟩ := ih h
      exact ⟨k1, List.mem_cons_of_mem _ hk1, he⟩
    · rw [if_neg h0] at h
      by_cases h1 : (get_codes k).1 ≠ MOD_NONE
      · rw [if_pos h1] at h
        rcases List.mem_cons.mp h with h2 | h2
        · exact ⟨k, List.mem_cons_self _ _, h2.symm⟩
        · obtain ⟨k1, hk1, he⟩ := ih h2
          exact ⟨k1, List.mem_cons_of_mem _ hk1, he⟩
      · rw [if_neg h1] at h
        obtain ⟨k1, hk1, he⟩ := ih h
        exact ⟨k1, List.mem_cons_of_mem _ hk1, he⟩

/-- C2 fails as stated: the state reached from all-zero by pressing "A"
is reachable using one distinct non-modifier key without rollover, yet
pressing "A" again (an idempotent no-op, not a rollover) and then
releasing "A" unseats the key instead of restoring the state. -/
theorem C2_counterexample :
    applyCommand (applyCommand (applyCommand zeroReport (Command.press ["A"]))
        (Command.press ["A"])) (Command.release ["A"])
      ≠ applyCommand zeroReport (Command.press ["A"]) := by decide

/-- C2 (amended).  For every ReportState whose modifier byte is zero
(in particular every state reachable using only non-modifier keys) and
every key list whose resolved usage codes are not already seated in a
slot, applying Press for the list and then Release for the same list
restores the state exactly; this holds even when rollover occurs during
the Press (a key dropped by rollover is never seated, and its release
is a no-op).  The only exception the code admits is the one exhibited
by the counterexample: a pressed key whose code was already seated. -/
theorem C2_press_release_roundtrip (r : Report) (ks : List String)
    (hmod : r.modifier = 0)
    (hfresh : ∀ k ∈ ks, (get_codes k).2 ∉ r.slots) :
    applyCommand (applyCommand r (Command.press ks)) (Command.release ks) = r := by
  show update_report_for_keys (update_report_for_keys r ks true) ks false = r
  have hslots : (update_report_for_keys (update_report_for_keys r ks true) ks false).slots
      = r.slots := by
    rw [update_slots_release, update_slots_press]
    exact slot_roundtrip r.slots (codesOf ks) (fun c hc => (mem_codesOf hc).1)
      (fun c hc => by
        obtain ⟨k, hk, he⟩ := (mem_codesOf hc).2
        exact he ▸ hfresh k hk)
  have hmods : (update_report_for_keys (update_report_for_keys r ks true) ks false).modifier
      = r.modifier := by
    rw [update_modifier_release, update_modifier_press, hmod]
    rw [mod_roundtrip (fun a ha => by
      obtain ⟨k, hk, he⟩ := mem_masksOf ha
      exact he ▸ (get_codes_lt k).1)]
  have hres : (update_report_for_keys (update_report_for_keys r ks true) ks false).reserved
      = r.reserved := by
    rw [update_reserved, update_reserved]
  exact Report.ext hmods hres hslots

/-- A report with the usage code of "B" seated, used as the C2
witness state. -/
def seatedB : Report := { modifier := 0, reserved := 0, slots := [5, 0, 0, 0, 0, 0] }

theorem C2_witness :
    seatedB.modifier = 0
    ∧ (∀ k ∈ ["A"], (get_codes k).2 ∉ seatedB.slots)
    ∧ applyCommand (applyCommand seatedB (Command.press ["A"])) (Command.release ["A"])
        = seatedB :=
  ⟨by decide, by decide,
   C2_press_release_roundtrip seatedB ["A"] (by decide) (by decide)⟩

/-! ## Claims C4, C5, C6: transmission behaviour -/

/-- A freshly connected service: both report states all-zero, a live
connection, nothing transmitted yet. -/
def connectedZeroState : HidState :=
  { report_state := zeroReport, last_sent_report_state := zeroReport,
    active_connection := true, sent_reports := [] }

/-- The report with only the usage code of "A" (0x04) seated. -/
def reportA : Report := { modifier := 0, reserved := 0, slots := [0x04, 0, 0, 0, 0, 0] }

def tapMappings : Mappings :=
  [("top_button_1_press", { type := some "key_tap", keys := ["A"] })]

def tapEvent : CanonicalEvent := { etype := EV_KEY, code := KEY_1, value := 1 }

/-- C4.  With `top_button_1_press` mapped to a tap of "A", the press
trigger enqueues exactly Press["A"] then Release["A"] — but draining
both commands in one processor cycle (the deterministic outcome, since
the input handler enqueues them back-to-back with no delay and the
drain callback empties the whole queue before its single send check)
transmits nothing at all: the state returns to all-zero, which equals
LastSentReport.  The two claimed reports are produced only if the two
commands happen to be drained in different cycles. -/
theorem C4_tap_lost_in_single_drain :
    process_event tapMappings tapEvent = [Command.press ["A"], Command.release ["A"]]
    ∧ (command_queue_processor_cb true connectedZeroState
        [Command.press ["A"], Command.release ["A"]]).sent_reports = []
    ∧ (command_queue_processor_cb true
        (command_queue_processor_cb true connectedZeroState [Command.press ["A"]])
        [Command.release ["A"]]).sent_reports = [reportA, zeroReport] := by
  refine ⟨by decide, by decide, by decide⟩

/-- C5.  Unregistering the active connection (every disconnect path:
hangup, error or empty read) resets ReportState and LastSentReport to
all-zero; and registering a connection transmits the all-zero report to
the new host before anything else, whether or not that write
succeeds. -/
theorem C5_disconnect_reset_and_initial_zero_report (s s2 : HidState) (sendOk : Bool) :
    ((unregister_active_connection s).report_state = zeroReport
      ∧ (unregister_active_connection s).last_sent_report_state = zeroReport)
    ∧ (register_active_connection sendOk s2).sent_reports
        = s2.sent_reports ++ [zeroReport] := by
  refine ⟨⟨rfl, rfl⟩, ?_⟩
  unfold register_active_connection send_empty_report send_report
  by_cases h : s2.active_connection <;> cases sendOk <;>
    simp [h, unregister_active_connection]

/-- The drain fold only rewrites `report_state`. -/
lemma processor_fold_fields (queue : List Command) :
    ∀ s : HidState,
      (queue.foldl (fun st c => { st with report_state := applyCommand st.report_state c })
          s).sent_reports = s.sent_reports
      ∧ (queue.foldl (fun st c => { st with report_state := applyCommand st.report_state c })
          s).active_connection = s.active_connection
      ∧ (queue.foldl (fun st c => { st with report_state := applyCommand st.report_state c })
          s).last_sent_report_state = s.last_sent_report_state := by
  induction queue with
  | nil => exact fun s => ⟨rfl, rfl, rfl⟩
  | cons c t ih =>
    intro s
    exact ih { s with report_state := applyCommand s.report_state c }

/-- One `_try_send_current_report_if_changed` hands at most one report
to the transport. -/
lemma try_send_sent_length (sendOk : Bool) (s : HidState) :
    (try_send_current_report_if_changed sendOk s).sent_reports.length
      ≤ s.sent_reports.length + 1 := by
  unfold try_send_current_report_if_changed send_report
  by_cases h1 : s.report_state ≠ s.last_sent_report_state <;>
    by_cases h2 : s.active_connection <;> cases sendOk <;>
      simp [h1, h2, unregister_active_connection]

/-- C6 fails as stated on the failure path: when the write fails, the
connection is torn down and LastSentReport is reset to all-zero rather
than keeping its pre-send value.  Here the pre-send value was the
previously acknowledged report of "B". -/
theorem C6_counterexample :
    (try_send_current_report_if_changed false
        { report_state := reportA, last_sent_report_state := seatedB,
          active_connection := true, sent_reports := [] }).last_sent_report_state
      ≠ seatedB := by decide

/-- C6 (amended).  The send check runs once per drained command batch,
not after each individual command (one processor cycle hands at most
one report to the transport); within a cycle, when the state differs
from LastSentReport and a connection is active, the report is handed to
the transport, LastSentReport is updated exactly on a successful send,
and a failed send tears the connection down and resets both ReportState
and LastSentReport to all-zero (no stale value is kept for a retry). -/
theorem C6_send_on_change_batch_semantics (s : HidState) (sendOk : Bool)
    (queue : List Command)
    (hA : s.active_connection = true)
    (hNe : s.report_state ≠ s.last_sent_report_state) :
    (command_queue_processor_cb sendOk s queue).sent_reports.length
      ≤ s.sent_reports.length + 1
    ∧ (try_send_current_report_if_changed sendOk s).sent_reports
        = s.sent_reports ++ [s.report_state]
    ∧ (sendOk = true →
        (try_send_current_report_if_changed sendOk s).last_sent_report_state
          = s.report_state
        ∧ (try_send_current_report_if_changed sendOk s).active_connection = true)
    ∧ (sendOk = false →
        (try_send_current_report_if_changed sendOk s).last_sent_report_state = zeroReport
        ∧ (try_send_current_report_if_changed sendOk s).active_connection = false) := by
  refine ⟨?_, ?_, ?_, ?_⟩
  · unfold command_queue_processor_cb
    by_cases hq : queue.isEmpty
    · simp [hq, (processor_fold_fields queue s).1]
    · simp only [hq, if_false]
      have h1 := try_send_sent_length sendOk
        (queue.foldl (fun st c => { st with report_state := applyCommand st.report_state c }) s)
      rw [(processor_fold_fields queue s).1] at h1
      simpa using h1
  · unfold try_send_current_report_if_changed send_report
    cases sendOk <;> simp [hNe, hA, unregister_active_connection]
  · intro he
    subst he
    unfold try_send_current_report_if_changed send_report
    simp [hNe, hA]
  · intro he
    subst he
    unfold try_send_current_report_if_changed send_report
    simp [hNe, hA, unregister_active_connection]

/-- A state with a pending unsent change, used as the C6 witness. -/
def pendingState : HidState :=
  { report_state := reportA, last_sent_report_state := zeroReport,
    active_connection := true, sent_reports := [] }

theorem C6_witness :
    pendingState.active_connection = true
    ∧ pendingState.report_state ≠ pendingState.last_sent_report_state
    ∧ (try_send_current_report_if_changed true pendingState).sent_reports
        = pendingState.sent_reports ++ [pendingState.report_state]
    ∧ (try_send_current_report_if_changed true pendingState).last_sent_report_state
        = pendingState.report_state :=
  ⟨by decide, by decide,
   (C6_send_on_change_batch_semantics pendingState true [] (by decide) (by decide)).2.1,
   ((C6_send_on_change_batch_semantics pendingState true [] (by decide) (by decide)).2.2.1
     rfl).1⟩

/-! ## Claim C8: mapping reload is visible to the next event -/

/-- C8.  When the administrative boundary replaces the mapping table
and the save succeeds (the handler then triggers the dispatcher
reload), the very next dispatched event resolves against the new table;
no dispatcher restart is involved. -/
theorem C8_reload_visible_next_event (s : SystemState) (new : Mappings)
    (ev : CanonicalEvent) (saveOk : Bool) (h : saveOk = true) :
    dispatch (api_set_mappings s new saveOk) ev = process_event new ev := by
  subst h
  rfl

def emptySystem : SystemState := { cm_config := [], ih_mappings := [] }

theorem C8_witness :
    dispatch (api_set_mappings emptySystem tapMappings true) tapEvent
      = process_event tapMappings tapEvent :=
  C8_reload_visible_next_event emptySystem tapMappings tapEvent true rfl

/-! ## Claim C9: set then get, and copy independence -/

lemma getD_append_self {α : Type} (d a : α) :
    ∀ (l t : List α), (l ++ a :: t).getD l.length d = a := by
  intro l
  induction l with
  | nil => intro t; rfl
  | cons x xs ih => intro t; simpa using ih t

lemma set_append_length {α : Type} (v a : α) :
    ∀ (l t : List α), (l ++ a :: t).set l.length v = l ++ v :: t := by
  intro l
  induction l with
  | nil => intro t; rfl
  | cons x xs ih => intro t; simp [ih t]

/-- C9.  Calling `update_mappings` with (a reference to) a complete
mapping `m` fully replaces the stored table: a subsequent
`get_mappings` returns a fresh object whose value equals `m`, and
mutating that returned object leaves the value stored by the manager
untouched (the copy is independent). -/
theorem C9_set_get_roundtrip_and_copy_isolation (H : List Mappings)
    (cfgRef0 : Nat) (m v : Mappings) (saveOk : Bool) :
    heapGet (get_mappings
        (update_mappings { heap := H ++ [m], configRef := cfgRef0 } H.length saveOk).1).1.heap
      (get_mappings
        (update_mappings { heap := H ++ [m], configRef := cfgRef0 } H.length saveOk).1).2 = m
    ∧ heapGet (mutateRef
        (get_mappings
          (update_mappings { heap := H ++ [m], configRef := cfgRef0 } H.length saveOk).1).1
        (get_mappings
          (update_mappings { heap := H ++ [m], configRef := cfgRef0 } H.length saveOk).1).2
        v).heap
      (get_mappings
        (update_mappings { heap := H ++ [m], configRef := cfgRef0 } H.length saveOk).1).1.configRef
      = m := by
  have e1 : heapGet (H ++ [m]) H.length = m := getD_append_self _ _ H []
  constructor
  · show ((H ++ [m]) ++ [heapGet (H ++ [m]) H.length]).getD (H ++ [m]).length [] = m
    rw [e1]
    exact getD_append_self _ _ (H ++ [m]) []
  · show (((H ++ [m]) ++ [heapGet (H ++ [m]) H.length]).set (H ++ [m]).length v).getD
        H.length [] = m
    rw [e1, set_append_length]
    rw [List.append_assoc]
    exact getD_append_self _ _ H [v]

end Superbird
